import Mathlib

/-!
# Verification of the AFL tipping agent prediction-history core (`tracker.py`)

A shallow embedding of the accuracy-tracking subsystem: the record store,
the winner/probability extractor, the prediction recorder
(`save_predictions`), the result reconciler (`check_and_update_results`),
the accuracy aggregator (`calculate_accuracy_summary`) and the history
formatter (`format_history_for_ai`).

Modelling conventions:
* Python strings are Lean `String`s; character-level scanning works on
  `List Char` (in this toolchain a `String` wraps a `List Char`).
* Python `None` becomes `Option.none`; a Python function that can raise
  is embedded as an `Option`-returning function where `none` marks an
  uncaught exception.
* `datetime.now().isoformat()` timestamps are threaded in as an explicit
  `now : String` argument.
* The results feed (`requests.get` on the Squiggle API) is passed in as
  `fetched : Option (List Game)`; `none` models a fetch that raised.
* Probabilities and percentages are `ℚ` (the Python floats in play are
  small decimals, exactly representable).
-/

namespace Tracker

/-- A round identifier: JSON stores either an integer round or a textual
round label such as "Opening Round". -/
inductive RoundId where
  | num (n : Int)
  | label (s : String)
deriving DecidableEq, Repr

/-- Python `str(round)` as applied to a round value. -/
def pyStr : RoundId → String
  | .num n => toString n
  | .label s => s

/-- One prediction record, with exactly the JSON fields written by
`save_predictions` / `check_and_update_results` in `tracker.py`. -/
structure Record where
  year : Int
  round : RoundId
  date : String
  venue : String
  home_team : String
  away_team : String
  predicted_winner : String
  predicted_probability : Option ℚ
  prediction_text : String
  actual_winner : Option String
  actual_margin : Option Int
  correct : Option Bool
  saved_at : String
  result_checked_at : Option String
deriving DecidableEq, Repr

/-- Per-bucket accuracy counts (`favourite_picks` / `upset_picks`). -/
structure BucketStat where
  correct : Nat
  total : Nat
deriving DecidableEq, Repr

/-- Per-round accuracy entry of `by_round`. -/
structure RoundStat where
  correct : Nat
  total : Nat
  pct : ℚ
deriving DecidableEq, Repr

/-- The derived accuracy summary.  The Python code represents "no summary"
as the empty dict `{}`; here a store carries `Option AccuracySummary` with
`none` for `{}`. -/
structure AccuracySummary where
  overall_correct : Nat
  overall_total : Nat
  overall_accuracy_pct : ℚ
  by_round : List (String × RoundStat)
  favourite_picks : BucketStat
  upset_picks : BucketStat
  last_updated : String
deriving DecidableEq, Repr

/-- The persisted JSON document: `{"predictions": [...], "accuracy_summary": {...}}`. -/
structure Store where
  predictions : List Record
  accuracy_summary : Option AccuracySummary
deriving DecidableEq, Repr

/-- The empty-shaped default document returned by `load_history` when the
file is absent or unparseable. -/
def emptyStore : Store := { predictions := [], accuracy_summary := none }

/-- One incoming prediction handed to `save_predictions`: the dict with
keys `home_team`, `away_team`, `prediction`, and optional `date`/`venue`. -/
structure PredIn where
  home_team : String
  away_team : String
  prediction : String
  date : String := ""
  venue : String := ""
deriving DecidableEq, Repr

/-- A completed game from the results feed, with the fields
`check_and_update_results` reads (`hteam`, `ateam`, `round`, `hscore`,
`ascore`, `complete`). -/
structure Game where
  hteam : String
  ateam : String
  round : RoundId
  hscore : Int
  ascore : Int
  complete : Nat
deriving DecidableEq, Repr

/-! ## Character-level text utilities (Python `str` operations) -/

/-- Python `str.upper()` (ASCII case fold, which covers all inputs used). -/
def upperL (l : List Char) : List Char := l.map Char.toUpper

/-- Python `str.find(sub)`: index of the first occurrence, `none` for `-1`. -/
def findSub (pat : List Char) : List Char → Option Nat
  | [] => if pat.isEmpty then some 0 else none
  | c :: rest =>
    if pat.isPrefixOf (c :: rest) then some 0
    else (findSub pat rest).map (· + 1)

/-- Fuel-driven worker for `countSub`; fuel `l.length` always suffices
because every step consumes at least one character. -/
def countSubF (pat : List Char) : Nat → List Char → Nat
  | _, [] => if pat.isEmpty then 1 else 0
  | 0, _ :: _ => 0
  | fuel + 1, c :: rest =>
    if pat.isEmpty then (c :: rest).length + 1
    else if pat.isPrefixOf (c :: rest) then
      1 + countSubF pat fuel ((c :: rest).drop pat.length)
    else countSubF pat fuel rest

/-- Python `str.count(sub)`: number of non-overlapping occurrences. -/
def countSub (pat l : List Char) : Nat := countSubF pat l.length l

/-! ## Winner extraction (`extract_predicted_winner`) -/

/-- The literal marker searched for in the AI text. -/
def markerChars : List Char := "PREDICTED WINNER".toList

/-- The `if "PREDICTED WINNER" in text:` branch of
`extract_predicted_winner`: search the 200-character window after the
marker for the first full occurrence of either team name.  Returns `none`
when the branch does not return (marker absent, or neither name in the
window), in which case the Python code falls through to the
mention-count fallback. -/
def winnerViaMarker (textU homeU awayU : List Char)
    (home_team away_team : String) : Option String :=
  match findSub markerChars textU with
  | some idx =>
    match findSub homeU ((textU.drop idx).take 200),
          findSub awayU ((textU.drop idx).take 200) with
    | some home_pos, some away_pos =>
      if home_pos < away_pos then some home_team else some away_team
    | some _, none => some home_team
    | none, some _ => some away_team
    | none, none => none
  | none => none

/-- The fallback of `extract_predicted_winner`: count full team name
mentions in the first 300 characters; strictly more mentions wins,
otherwise `"Unknown"`. -/
def mentionFallback (prediction_text home_team away_team : String) : String :=
  let snippet := upperL (prediction_text.toList.take 300)
  let home_count := countSub (upperL home_team.toList) snippet
  let away_count := countSub (upperL away_team.toList) snippet
  if away_count < home_count then home_team
  else if home_count < away_count then away_team
  else "Unknown"

/-- `extract_predicted_winner(prediction_text, home_team, away_team)`:
parse the AI prediction text for the predicted winner using full-name
matching, with the mention-count fallback. -/
def extract_predicted_winner (prediction_text home_team away_team : String) : String :=
  match winnerViaMarker (upperL prediction_text.toList)
      (upperL home_team.toList) (upperL away_team.toList) home_team away_team with
  | some w => w
  | none => mentionFallback prediction_text home_team away_team

/-! ## Probability extraction (`extract_predicted_probability`)

The Python code runs `re.findall(r'(\d{2,3}(?:\.\d)?)\s*%', text)` and
returns the first captured value in `[50, 99]`.  The scanner below mirrors
the regex engine: at each position try three digits (greedily) then two,
then an optional `.d` fraction, then `\s*%`; matches are non-overlapping. -/

/-- Python `\d`: an ASCII digit, with its value. -/
def digit? (c : Char) : Option Nat :=
  if c.isDigit then some (c.toNat - 48) else none

/-- Python `\s` (whitespace class). -/
def pySpace (c : Char) : Bool :=
  c = ' ' || c = '\t' || c = '\n' || c = '\r' || c = '\x0b' || c = '\x0c'

/-- Drop the leading run of `\s` characters. -/
def skipSpaces : List Char → List Char
  | [] => []
  | c :: rest => if pySpace c then skipSpaces rest else c :: rest

/-- Match `\s*%` and return the captured value with the rest of the input. -/
def tryPct (q : ℚ) (l : List Char) : Option (ℚ × List Char) :=
  match skipSpaces l with
  | c :: rest => if c = '%' then some (q, rest) else none
  | [] => none

/-- Match the optional `(?:\.\d)?` (greedy: with the fraction first) and
then `\s*%`.  If a `.d` fraction is present but `\s*%` fails after it, the
regex engine would backtrack and retry `\s*%` at the `.` itself — that
retry can never succeed (`\s*` cannot consume `.` and `. ≠ %`), so it is
elided here. -/
def tryFrac (v : Nat) (l : List Char) : Option (ℚ × List Char) :=
  match l with
  | p :: d :: rest =>
    if p = '.' then
      match digit? d with
      | some z => tryPct ((10 * v + z : ℚ) / 10) rest
      | none => tryPct (v : ℚ) l
    else tryPct (v : ℚ) l
  | _ => tryPct (v : ℚ) l

/-- Attempt a full regex match anchored at the head of `l`; on success
return the captured percentage value and the unconsumed input.  The
greedy `\d{2,3}` takes a third digit when present; the engine's backtrack
to two digits can never succeed in that situation (the tail would then
start with a digit, which neither `\.\d`, `\s*` nor `%` can begin with),
so it is elided here. -/
def matchAt (l : List Char) : Option (ℚ × List Char) :=
  match l with
  | d₁ :: d₂ :: rest =>
    match digit? d₁, digit? d₂ with
    | some x, some y =>
      (match rest with
       | d₃ :: rest₃ =>
         match digit? d₃ with
         | some z => tryFrac (100 * x + 10 * y + z) rest₃
         | none => tryFrac (10 * x + y) rest
       | [] => tryFrac (10 * x + y) rest)
    | _, _ => none
  | _ => none

/-- Fuel-driven scanner for all (non-overlapping) percentage tokens; fuel
`l.length` always suffices because a match consumes at least one
character. -/
def pctScanF : Nat → List Char → List ℚ
  | 0, _ => []
  | _, [] => []
  | fuel + 1, c :: rest =>
    match matchAt (c :: rest) with
    | some (v, r) => v :: pctScanF fuel r
    | none => pctScanF fuel rest

/-- All percentage tokens of the text, left to right (`re.findall`). -/
def pctScan (l : List Char) : List ℚ := pctScanF l.length l

/-- `extract_predicted_probability(prediction_text, predicted_winner)`:
first percentage token whose value lies in `[50, 99]`, else `None`.
Note that the Python body never reads `predicted_winner`. -/
def extract_predicted_probability (prediction_text : String)
    (predicted_winner : String) : Option ℚ :=
  (pctScan prediction_text.toList).find?
    (fun v => decide (50 ≤ v) && decide (v ≤ 99))

/-! ## Prediction recorder (`save_predictions`) -/

/-- The duplicate check of `save_predictions`: an existing record with the
same `(home_team, away_team, round, year)` key. -/
def keyMatches (p : Record) (pred : PredIn) (round_number : RoundId) (year : Int) : Bool :=
  decide (p.home_team = pred.home_team) && decide (p.away_team = pred.away_team) &&
    decide (p.round = round_number) && decide (p.year = year)

/-- `next((p for p in history["predictions"] if ...), None) is not None`. -/
def existsKey (preds : List Record) (pred : PredIn) (r : RoundId) (y : Int) : Bool :=
  preds.any (fun p => keyMatches p pred r y)

/-- The fresh record appended for a new prediction: extractor results,
`actual_*`/`correct` all `None`, `saved_at` stamped. -/
def mkRecord (pred : PredIn) (round_number : RoundId) (year : Int) (now : String) : Record :=
  { year := year
    round := round_number
    date := pred.date
    venue := pred.venue
    home_team := pred.home_team
    away_team := pred.away_team
    predicted_winner := extract_predicted_winner pred.prediction pred.home_team pred.away_team
    predicted_probability :=
      extract_predicted_probability pred.prediction
        (extract_predicted_winner pred.prediction pred.home_team pred.away_team)
    prediction_text := pred.prediction
    actual_winner := none
    actual_margin := none
    correct := none
    saved_at := now
    result_checked_at := none }

/-- The `for pred in predictions_list:` loop of `save_predictions`:
skip keys that already exist, append fresh records otherwise. -/
def saveLoop (r : RoundId) (y : Int) (now : String) :
    List PredIn → List Record → List Record
  | [], preds => preds
  | pred :: rest, preds =>
    if existsKey preds pred r y then saveLoop r y now rest preds
    else saveLoop r y now rest (preds ++ [mkRecord pred r y now])

/-- `save_predictions(predictions_list, round_number, year)`: de-duplicate
against the store, append the new records, persist once. -/
def save_predictions (predictions_list : List PredIn) (round_number : RoundId)
    (year : Int) (now : String) (store : Store) : Store :=
  { store with
    predictions := saveLoop round_number year now predictions_list store.predictions }

/-! ## Accuracy aggregator (`calculate_accuracy_summary`) -/

/-- Python `round` to an integer: round-half-to-even (banker's rounding). -/
def round_half_even (q : ℚ) : ℤ :=
  let f := ⌊q⌋
  if q - f < 1 / 2 then f
  else if (1 : ℚ) / 2 < q - f then f + 1
  else if f % 2 = 0 then f else f + 1

/-- Python `round(q, 1)`. -/
def round1 (q : ℚ) : ℚ := (round_half_even (q * 10) : ℚ) / 10

/-- Truthiness test `if p["correct"]` on the tri-state field
(`None` and `False` are falsy). -/
def correctTruthy (p : Record) : Bool := p.correct.getD false

/-- `p.get("predicted_probability") and p["predicted_probability"] < 55`:
note the Python truthiness test, under which a probability of `0` would
behave like a missing one. -/
def upsetPickB (p : Record) : Bool :=
  match p.predicted_probability with
  | some q => decide (q ≠ 0) && decide (q < 55)
  | none => false

/-- `p.get("predicted_probability") and p["predicted_probability"] >= 55`. -/
def favPickB (p : Record) : Bool :=
  match p.predicted_probability with
  | some q => decide (q ≠ 0) && decide (55 ≤ q)
  | none => false

/-- One step of the per-round tally: `rounds[r]["total"] += 1` and
conditionally `rounds[r]["correct"] += 1`, inserting the key first if
absent (dict insertion order is preserved). -/
def bumpRound (m : List (String × Nat × Nat)) (r : String) (c : Bool) :
    List (String × Nat × Nat) :=
  match m with
  | [] => [(r, ((if c then 1 else 0), 1))]
  | (k, (kc, kt)) :: rest =>
    if k = r then (k, (kc + (if c then 1 else 0), kt + 1)) :: rest
    else (k, (kc, kt)) :: bumpRound rest r c

/-- `calculate_accuracy_summary(predictions)`: overall, per-round and
favourite/underdog accuracy over the resolved records; the Python `{}`
result for no resolved records is `none`. -/
def calculate_accuracy_summary (predictions : List Record) (now : String) :
    Option AccuracySummary :=
  let completed := predictions.filter (fun p => !p.correct.isNone)
  if completed.isEmpty then none
  else
    let total := completed.length
    let correct := (completed.filter correctTruthy).length
    let rounds := completed.foldl (fun m p => bumpRound m (pyStr p.round) (correctTruthy p)) []
    let upset_picks := completed.filter upsetPickB
    let favourite_picks := completed.filter favPickB
    some
      { overall_correct := correct
        overall_total := total
        overall_accuracy_pct :=
          if 0 < total then round1 ((correct : ℚ) / (total : ℚ) * 100) else 0
        by_round := rounds.map (fun kv =>
          (kv.1,
            { correct := kv.2.1
              total := kv.2.2
              pct := round1 ((kv.2.1 : ℚ) / (kv.2.2 : ℚ) * 100) }))
        favourite_picks :=
          { correct := (favourite_picks.filter correctTruthy).length
            total := favourite_picks.length }
        upset_picks :=
          { correct := (upset_picks.filter correctTruthy).length
            total := upset_picks.length }
        last_updated := now }

/-! ## Result reconciler (`check_and_update_results`) -/

/-- Membership of the `pending` selection: `p["correct"] is None and
p["year"] == year`. -/
def isPendingFor (year : Int) (p : Record) : Bool :=
  p.correct.isNone && decide (p.year = year)

/-- The matching completed game for a pending record: same home team,
away team and (stringified) round. -/
def findMatch (p : Record) (completed_games : List Game) : Option Game :=
  completed_games.find? (fun g =>
    decide (g.hteam = p.home_team) && decide (g.ateam = p.away_team) &&
      decide (pyStr g.round = pyStr p.round))

/-- The in-place update of a matched pending record: actual winner by
score comparison (`"Draw"` on equal scores), absolute margin, correctness,
and the `result_checked_at` stamp. -/
def updateRecord (p : Record) (g : Game) (now : String) : Record :=
  { p with
    actual_winner := some
      (if g.ascore < g.hscore then p.home_team
       else if g.hscore < g.ascore then p.away_team
       else "Draw")
    actual_margin := some |g.hscore - g.ascore|
    correct := some
      (decide (p.predicted_winner =
        (if g.ascore < g.hscore then p.home_team
         else if g.hscore < g.ascore then p.away_team
         else "Draw")))
    result_checked_at := some now }

/-- `check_and_update_results(year)`.  The external fetch is passed in as
`fetched` (`none` models `requests.get`/`.json()` raising, which the code
catches and turns into an early `return None`).  Returns the persisted
store together with the Python return value. -/
def check_and_update_results (year : Int) (fetched : Option (List Game))
    (now : String) (store : Store) : Store × Option AccuracySummary :=
  let pending := store.predictions.filter (isPendingFor year)
  if pending.isEmpty then (store, none)
  else
    match fetched with
    | none => (store, none)
    | some all_games =>
      let completed_games := all_games.filter (fun g => decide (g.complete = 100))
      let newPreds := store.predictions.map (fun p =>
        if isPendingFor year p then
          match findMatch p completed_games with
          | some g => updateRecord p g now
          | none => p
        else p)
      let summary := calculate_accuracy_summary newPreds now
      ({ predictions := newPreds, accuracy_summary := summary }, summary)

/-! ## History formatter (`format_history_for_ai`)

The formatter is embedded as an `Option String`-valued function: `none`
models an uncaught Python exception (the body performs `int(...)` on
round values, which raises `ValueError` on a non-numeric round label, and
`'%.0f' % p['predicted_probability']`, which raises `TypeError` when the
probability is `None`). -/

/-- Python `int(s)` on a string: `none` models a raised `ValueError`. -/
def pyInt (s : String) : Option Int :=
  match s.toList with
  | [] => none
  | '-' :: ds =>
    if !ds.isEmpty && ds.all Char.isDigit then
      some (-(((ds.foldl (fun a c => 10 * a + (c.toNat - 48)) 0 : Nat)) : Int))
    else none
  | ds =>
    if ds.all Char.isDigit then
      some ((ds.foldl (fun a c => 10 * a + (c.toNat - 48)) 0 : Nat) : Int)
    else none

/-- Python `int(round_value)`: identity on numeric rounds, string parse on
labels (which raises — `none` — for labels such as "Opening Round"). -/
def pyIntR : RoundId → Option Int
  | .num n => some n
  | .label s => pyInt s

/-- Stable insertion into a sorted list: `lt a b` means `a` must come
strictly before `b`; on ties the earlier element stays first, matching
Python's stable sort. -/
def insertByLt (lt : α → α → Bool) (x : α) : List α → List α
  | [] => [x]
  | y :: ys => if lt y x then y :: insertByLt lt x ys else x :: y :: ys

/-- Stable sort by the strict comparator `lt` (Python `list.sort`). -/
def isortBy (lt : α → α → Bool) : List α → List α
  | [] => []
  | x :: xs => insertByLt lt x (isortBy lt xs)

/-- Descending comparison on `(year, round)` sort keys, i.e. Python tuple
`>` used through `sort(key=..., reverse=True)`. -/
def keyGtB (a b : Int × Int) : Bool :=
  decide (b.1 < a.1) || (decide (a.1 = b.1) && decide (b.2 < a.2))

/-- Python slice `l[-n:]`. -/
def lastN (n : Nat) (l : List α) : List α := l.drop (l.length - n)

/-- `'%.0f' % q`: format with no decimals (round-half-even). -/
def fmt0 (q : ℚ) : String := toString (round_half_even q)

/-- Display of a one-decimal float such as `66.7` inside an f-string. -/
def fmt1 (q : ℚ) : String :=
  toString ⌊q⌋ ++ "." ++ toString (⌊q * 10⌋ - 10 * ⌊q⌋)

/-- f-string display of an optional string field (`None` prints as
`"None"`). -/
def optStr : Option String → String
  | some s => s
  | none => "None"

/-- f-string display of the optional `actual_margin` field. -/
def optMarginStr : Option Int → String
  | some m => toString m
  | none => "None"

/-- The accuracy block of `format_history_for_ai` (the `if accuracy:`
section). -/
def accuracySections : Option AccuracySummary → Option (List String)
  | none => some []
  | some acc => do
    let overallLine :=
      "  Overall: " ++ toString acc.overall_correct ++ "/" ++
        toString acc.overall_total ++ " (" ++ fmt1 acc.overall_accuracy_pct ++ "% correct)"
    let favLines :=
      if 0 < acc.favourite_picks.total then
        ["  Favourite picks: " ++ toString acc.favourite_picks.correct ++ "/" ++
          toString acc.favourite_picks.total ++ " (" ++
          fmt1 (round1 ((acc.favourite_picks.correct : ℚ) /
            (acc.favourite_picks.total : ℚ) * 100)) ++ "%)"]
      else []
    let upsetLines :=
      if 0 < acc.upset_picks.total then
        ["  Underdog picks: " ++ toString acc.upset_picks.correct ++ "/" ++
          toString acc.upset_picks.total ++ " (" ++
          fmt1 (round1 ((acc.upset_picks.correct : ℚ) /
            (acc.upset_picks.total : ℚ) * 100)) ++ "%)"]
      else []
    let roundLines ←
      if acc.by_round.isEmpty then some []
      else do
        let keyed ← acc.by_round.mapM (fun kv => (pyInt kv.1).map (fun n => (n, kv)))
        let recent := lastN 3 (isortBy (fun a b => decide (a.1 < b.1)) keyed)
        some ["  Recent rounds: " ++
          String.intercalate ", " (recent.map (fun nkv =>
            "Rd " ++ nkv.2.1 ++ ": " ++ toString nkv.2.2.correct ++ "/" ++
              toString nkv.2.2.total))]
    some (["📊 AGENT\x27S OWN ACCURACY THIS SEASON:", overallLine] ++
      favLines ++ upsetLines ++ roundLines)

/-- One line of the past-predictions-for-these-teams section.  The
`'%.0f' % p['predicted_probability']` formatting raises (`none`) when the
record has no extracted probability. -/
def teamHistoryLine (p : Record) : Option String := do
  let probStr ← p.predicted_probability.map fmt0
  let resultStr := if correctTruthy p then "✅ CORRECT" else "❌ WRONG"
  some ("  Rd " ++ pyStr p.round ++ ": " ++ p.home_team ++ " vs " ++ p.away_team ++
    " — tipped " ++ p.predicted_winner ++ " (" ++ probStr ++ "% confidence) — " ++
    resultStr ++ " (actual winner: " ++ optStr p.actual_winner ++ ")")

/-- One line of the recent-incorrect-predictions section. -/
def wrongLine (p : Record) : String :=
  "  Rd " ++ pyStr p.round ++ ": Tipped " ++ p.predicted_winner ++ " over " ++
    optStr p.actual_winner ++ " — actual winner won by " ++
    optMarginStr p.actual_margin ++ " pts"

/-- `format_history_for_ai(home_team, away_team)` over a given store;
`none` models an uncaught exception escaping to the caller. -/
def format_history_for_ai (home_team away_team : String) (store : Store) :
    Option String :=
  if store.predictions.isEmpty then
    some "No prediction history yet — this is the first round of the season."
  else do
    let accSections ← accuracySections store.accuracy_summary
    let team_history := store.predictions.filter (fun p =>
      (decide (p.home_team = home_team) || decide (p.home_team = away_team) ||
        decide (p.away_team = home_team) || decide (p.away_team = away_team)) &&
        !p.correct.isNone)
    let keyedTH ← team_history.mapM (fun p =>
      (pyIntR p.round).map (fun rn => ((p.year, rn), p)))
    let sortedTH := isortBy (fun a b => keyGtB a.1 b.1) keyedTH
    let thSections ←
      if sortedTH.isEmpty then some []
      else do
        let lines ← (sortedTH.take 6).mapM (fun kp => teamHistoryLine kp.2)
        some (("\n🔍 AGENT\x27S PAST PREDICTIONS INVOLVING " ++
          home_team.toUpper ++ " OR " ++ away_team.toUpper ++ ":") :: lines)
    let wrong_recent := store.predictions.filter (fun p => p.correct == some false)
    let keyedW ← wrong_recent.mapM (fun p =>
      (pyIntR p.round).map (fun rn => ((p.year, rn), p)))
    let sortedW := isortBy (fun a b => keyGtB a.1 b.1) keyedW
    let wSections :=
      if (sortedW.take 4).isEmpty then []
      else
        ("\n⚠️  RECENT INCORRECT PREDICTIONS (use these to recalibrate):") ::
          (sortedW.take 4).map (fun kp => wrongLine kp.2)
    some (String.intercalate "\n" (accSections ++ thSections ++ wSections))

/-! ## Operation sequences (for the temporal claims) -/

/-- A core operation on the store: one `save_predictions` call or one
`check_and_update_results` call (with its fetch outcome). -/
inductive Op where
  | record (batch : List PredIn) (r : RoundId) (y : Int) (now : String)
  | check (year : Int) (fetched : Option (List Game)) (now : String)

/-- Apply one operation to the persisted store. -/
def applyOp (s : Store) : Op → Store
  | .record batch r y now => save_predictions batch r y now s
  | .check year fetched now => (check_and_update_results year fetched now s).1

/-- Run a sequence of core operations against the store. -/
def runOps (s : Store) (ops : List Op) : Store := ops.foldl applyOp s

/-! ## Well-formedness predicates from the §3 data model -/

/-- Tri-state correctness of one record: `correct` is `None` iff
`actual_winner` is, and a non-`None` `correct` equals
`predicted_winner == actual_winner`. -/
def triOkB (p : Record) : Bool :=
  match p.correct, p.actual_winner with
  | none, none => true
  | some b, some w => b == decide (p.predicted_winner = w)
  | _, _ => false

/-- The §3 constraint on `predicted_probability`: absent, or a value in
`[50, 99]`. -/
def wfProbB (p : Record) : Bool :=
  match p.predicted_probability with
  | some q => decide (50 ≤ q) && decide (q ≤ 99)
  | none => true

/-- A §3-well-formed record. -/
def wfRecordB (p : Record) : Bool := triOkB p && wfProbB p

/-! ## Lemmas about the recorder loop -/

theorem saveLoop_extends (r : RoundId) (y : Int) (now : String) :
    ∀ (batch : List PredIn) (preds : List Record),
      ∃ t, saveLoop r y now batch preds = preds ++ t
  | [], preds => ⟨[], by simp [saveLoop]⟩
  | pred :: rest, preds => by
    by_cases h : existsKey preds pred r y
    · obtain ⟨t, ht⟩ := saveLoop_extends r y now rest preds
      exact ⟨t, by simp [saveLoop, h, ht]⟩
    · obtain ⟨t, ht⟩ := saveLoop_extends r y now rest (preds ++ [mkRecord pred r y now])
      exact ⟨[mkRecord pred r y now] ++ t, by simp [saveLoop, h, ht]⟩

theorem mem_of_mem_saveLoop_input (r : RoundId) (y : Int) (now : String)
    (batch : List PredIn) (preds : List Record) (p : Record) (hp : p ∈ preds) :
    p ∈ saveLoop r y now batch preds := by
  obtain ⟨t, ht⟩ := saveLoop_extends r y now batch preds
  rw [ht]
  exact List.mem_append_left t hp

theorem saveLoop_key_present (r : RoundId) (y : Int) (now : String) :
    ∀ (batch : List PredIn) (preds : List Record) (pred : PredIn),
      pred ∈ batch →
      ∃ p ∈ saveLoop r y now batch preds, keyMatches p pred r y = true := by
  intro batch
  induction batch with
  | nil => intro _ _ h; cases h
  | cons q rest ih =>
    intro preds pred hmem
    rcases List.mem_cons.mp hmem with hq | hrest
    · subst hq
      by_cases h : existsKey preds pred r y
      · obtain ⟨p, hp, hk⟩ := List.any_eq_true.mp h
        refine ⟨p, ?_, hk⟩
        simpa [saveLoop, h] using
          mem_of_mem_saveLoop_input r y now rest preds p hp
      · refine ⟨mkRecord pred r y now, ?_, ?_⟩
        · simp only [saveLoop, h, if_false]
          exact mem_of_mem_saveLoop_input r y now rest _ _
            (by simp)
        · simp [keyMatches, mkRecord]
    · by_cases h : existsKey preds q r y
      · simpa [saveLoop, h] using ih preds pred hrest
      · simpa [saveLoop, h] using ih (preds ++ [mkRecord q r y now]) pred hrest

theorem saveLoop_of_all_present (r : RoundId) (y : Int) (now : String) :
    ∀ (batch : List PredIn) (preds : List Record),
      (∀ pred ∈ batch, existsKey preds pred r y = true) →
      saveLoop r y now batch preds = preds := by
  intro batch
  induction batch with
  | nil => intro preds _; rfl
  | cons q rest ih =>
    intro preds hall
    have hq : existsKey preds q r y = true := hall q (by simp)
    simp only [saveLoop, hq, if_true]
    exact ih preds (fun pred hp => hall pred (by simp [hp]))

/-- C1, claim as stated: every prediction of the batch has a key-matching
record in the store after `save_predictions`, so a second identical call
changes nothing. -/
theorem save_predictions_idempotent (batch : List PredIn) (r : RoundId)
    (y : Int) (t₁ t₂ : String) (store : Store) :
    save_predictions batch r y t₂ (save_predictions batch r y t₁ store) =
      save_predictions batch r y t₁ store := by
  have hall : ∀ pred ∈ batch,
      existsKey (saveLoop r y t₁ batch store.predictions) pred r y = true := by
    intro pred hp
    obtain ⟨p, hpmem, hk⟩ := saveLoop_key_present r y t₁ batch store.predictions pred hp
    exact List.any_eq_true.mpr ⟨p, hpmem, hk⟩
  simp only [save_predictions]
  simp only [saveLoop_of_all_present r y t₂ batch _ hall]

/-- C1: recording is idempotent — a second `save_predictions` call with
the identical batch for the same `(year, round, home_team, away_team)`
keys leaves the store exactly as after the first call; moreover the first
call only appends, so records whose key already exists (with any
reconciled fields) are never overwritten. -/
theorem claim_C1_recording_idempotent (batch : List PredIn) (r : RoundId)
    (y : Int) (t₁ t₂ : String) (store : Store) :
    save_predictions batch r y t₂ (save_predictions batch r y t₁ store) =
      save_predictions batch r y t₁ store ∧
    ∃ added, (save_predictions batch r y t₁ store).predictions =
      store.predictions ++ added :=
  ⟨save_predictions_idempotent batch r y t₁ t₂ store,
   saveLoop_extends r y t₁ batch store.predictions⟩

/-! ## Lemmas for the tri-state invariant (C2) -/

theorem triOkB_mkRecord (pred : PredIn) (r : RoundId) (y : Int) (now : String) :
    triOkB (mkRecord pred r y now) = true := rfl

theorem mem_saveLoop_cases (r : RoundId) (y : Int) (now : String) :
    ∀ (batch : List PredIn) (preds : List Record) (p : Record),
      p ∈ saveLoop r y now batch preds →
      p ∈ preds ∨ ∃ pred, p = mkRecord pred r y now := by
  intro batch
  induction batch with
  | nil => intro preds p hp; exact Or.inl hp
  | cons q rest ih =>
    intro preds p hp
    by_cases h : existsKey preds q r y
    · simp only [saveLoop, h, if_true] at hp
      exact ih preds p hp
    · simp only [saveLoop, h, if_false] at hp
      rcases ih _ p hp with hmem | hnew
      · rcases List.mem_append.mp hmem with hold | hnew'
        · exact Or.inl hold
        · exact Or.inr ⟨q, by simpa using hnew'⟩
      · exact Or.inr hnew

theorem triOkB_updateRecord (p : Record) (g : Game) (now : String) :
    triOkB (updateRecord p g now) = true := by
  simp [triOkB, updateRecord]

/-- C2: the tri-state correctness invariant (`correct` is `None` iff
`actual_winner` is; otherwise `correct = (predicted_winner ==
actual_winner)`) is preserved by `save_predictions` and by
`check_and_update_results`, so it holds in every store they produce. -/
theorem claim_C2_tristate_invariant (store : Store)
    (hinv : ∀ p ∈ store.predictions, triOkB p = true) :
    (∀ (batch : List PredIn) (r : RoundId) (y : Int) (t : String),
      ∀ p ∈ (save_predictions batch r y t store).predictions, triOkB p = true) ∧
    (∀ (year : Int) (fetched : Option (List Game)) (now : String),
      ∀ p ∈ (check_and_update_results year fetched now store).1.predictions,
        triOkB p = true) := by
  constructor
  · intro batch r y t p hp
    rcases mem_saveLoop_cases r y t batch store.predictions p hp with hold | ⟨pred, rfl⟩
    · exact hinv p hold
    · exact triOkB_mkRecord pred r y t
  · intro year fetched now p hp
    simp only [check_and_update_results] at hp
    by_cases hpend : (store.predictions.filter (isPendingFor year)).isEmpty
    · simp only [hpend, if_true] at hp
      exact hinv p hp
    · simp only [hpend, if_false] at hp
      cases fetched with
      | none => exact hinv p hp
      | some games =>
        simp only at hp
        rcases List.mem_map.mp hp with ⟨q, hq, hqp⟩
        subst hqp
        by_cases hq2 : isPendingFor year q
        · simp only [hq2, if_true]
          cases hfind : findMatch q (games.filter fun g => decide (g.complete = 100)) with
          | none => simpa [hfind] using hinv q hq
          | some g => simp [hfind, triOkB_updateRecord]
        · simpa [hq2] using hinv q hq

/-! ## C3: reconciliation postcondition -/

/-- C3: a pending record of the requested year matched to a completed
game with scores `(hscore, ascore)` is updated in place with
`actual_winner` = home team / away team / `"Draw"` by score comparison,
`actual_margin` = `|hscore - ascore|` (non-negative), `correct` =
`(predicted_winner == actual_winner)`, and a `result_checked_at` stamp. -/
theorem claim_C3_reconciliation_postcondition (year : Int) (games : List Game)
    (now : String) (store : Store) (i : Nat) (p : Record) (g : Game)
    (hp : store.predictions[i]? = some p)
    (hpend : isPendingFor year p = true)
    (hmatch : findMatch p (games.filter fun g => decide (g.complete = 100)) = some g) :
    (check_and_update_results year (some games) now store).1.predictions[i]? =
      some (updateRecord p g now) ∧
    (updateRecord p g now).actual_winner = some
      (if g.ascore < g.hscore then p.home_team
       else if g.hscore < g.ascore then p.away_team
       else "Draw") ∧
    (updateRecord p g now).actual_margin = some |g.hscore - g.ascore| ∧
    (∀ m, (updateRecord p g now).actual_margin = some m → 0 ≤ m) ∧
    (updateRecord p g now).correct = some
      (decide (p.predicted_winner =
        (if g.ascore < g.hscore then p.home_team
         else if g.hscore < g.ascore then p.away_team
         else "Draw"))) ∧
    (updateRecord p g now).result_checked_at = some now := by
  refine ⟨?_, rfl, rfl, ?_, rfl, rfl⟩
  · have hmem : p ∈ store.predictions := List.getElem?_mem hp
    have hfilter : p ∈ store.predictions.filter (isPendingFor year) :=
      List.mem_filter.mpr ⟨hmem, hpend⟩
    have hne : ¬(store.predictions.filter (isPendingFor year)).isEmpty = true := by
      intro habs
      rw [List.isEmpty_iff.mp habs] at hfilter
      cases hfilter
    simp only [check_and_update_results]
    rw [if_neg hne]
    simp only
    rw [List.getElem?_map, hp]
    simp [hpend, hmatch]
  · intro m hm
    simp only [updateRecord] at hm
    cases hm
    exact abs_nonneg _

/-! ## C9: reconciler error handling -/

/-- C9: with nothing pending for the year, or with a failed results
fetch, `check_and_update_results` returns `None` and leaves the persisted
store entirely unchanged. -/
theorem claim_C9_reconciler_no_op (year : Int) (fetched : Option (List Game))
    (now : String) (store : Store)
    (h : (store.predictions.filter (isPendingFor year)).isEmpty = true ∨ fetched = none) :
    check_and_update_results year fetched now store = (store, none) := by
  rcases h with hempty | hnone
  · simp [check_and_update_results, hempty]
  · subst hnone
    by_cases hempty : (store.predictions.filter (isPendingFor year)).isEmpty = true
    · simp [check_and_update_results, hempty]
    · simp [check_and_update_results, hempty]

/-! ## C8: resolution is one-way -/

theorem save_keeps_record (batch : List PredIn) (r : RoundId) (y : Int)
    (now : String) (store : Store) (i : Nat) (p : Record)
    (hp : store.predictions[i]? = some p) :
    (save_predictions batch r y now store).predictions[i]? = some p ∧
    store.predictions.length ≤ (save_predictions batch r y now store).predictions.length := by
  obtain ⟨t, ht⟩ := saveLoop_extends r y now batch store.predictions
  have hlt : i < store.predictions.length := (List.getElem?_eq_some.mp hp).1
  constructor
  · show (saveLoop r y now batch store.predictions)[i]? = some p
    rw [ht, List.getElem?_append, if_pos hlt, hp]
  · show store.predictions.length ≤ (saveLoop r y now batch store.predictions).length
    rw [ht]
    simp

theorem check_keeps_resolved (year : Int) (fetched : Option (List Game))
    (now : String) (store : Store) (i : Nat) (p : Record)
    (hp : store.predictions[i]? = some p) (hres : p.correct ≠ none) :
    (check_and_update_results year fetched now store).1.predictions[i]? = some p ∧
    store.predictions.length ≤
      (check_and_update_results year fetched now store).1.predictions.length := by
  have hnotpend : isPendingFor year p = false := by
    cases hc : p.correct with
    | none => exact absurd hc hres
    | some b => simp [isPendingFor, hc]
  simp only [check_and_update_results]
  by_cases hempty : (store.predictions.filter (isPendingFor year)).isEmpty = true
  · rw [if_pos hempty]
    exact ⟨hp, le_refl _⟩
  · rw [if_neg hempty]
    cases fetched with
    | none => exact ⟨hp, le_refl _⟩
    | some games =>
      simp only
      constructor
      · rw [List.getElem?_map, hp]
        simp [hnotpend]
      · simp

/-- C8: across any sequence of `save_predictions` /
`check_and_update_results` calls, a record whose `correct` field is
non-`None` is never modified again (same record at the same index), and
no operation shrinks the store. -/
theorem claim_C8_resolution_one_way (ops : List Op) (store : Store) (i : Nat)
    (p : Record) (hp : store.predictions[i]? = some p) (hres : p.correct ≠ none) :
    (runOps store ops).predictions[i]? = some p ∧
    store.predictions.length ≤ (runOps store ops).predictions.length := by
  induction ops generalizing store with
  | nil => exact ⟨hp, le_refl _⟩
  | cons op rest ih =>
    have hstep : (applyOp store op).predictions[i]? = some p ∧
        store.predictions.length ≤ (applyOp store op).predictions.length := by
      cases op with
      | record batch r y now => exact save_keeps_record batch r y now store i p hp
      | check year fetched now => exact check_keeps_resolved year fetched now store i p hp hres
    obtain ⟨h₁, h₂⟩ := ih (applyOp store op) hstep.1
    exact ⟨h₁, le_trans hstep.2 h₂⟩

/-! ## C4: the accuracy summary versus its reference definition -/

/-- Reference predicate (spec wording): a resolved record. -/
def resolvedB (p : Record) : Bool := !p.correct.isNone

/-- Reference predicate (spec wording): has a probability and it is a
favourite pick (`probability >= 55`). -/
def probIsGe55 (p : Record) : Bool :=
  match p.predicted_probability with
  | some q => decide (55 ≤ q)
  | none => false

/-- Reference predicate (spec wording): has a probability and it is an
upset pick (`probability < 55`). -/
def probIsLt55 (p : Record) : Bool :=
  match p.predicted_probability with
  | some q => decide (q < 55)
  | none => false

theorem filter_length_split (l : List α) (a b w : α → Bool)
    (h : ∀ x ∈ l, (a x || b x) = w x ∧ (a x && b x) = false) :
    (l.filter a).length + (l.filter b).length = (l.filter w).length := by
  induction l with
  | nil => rfl
  | cons x xs ih =>
    have hx := h x (List.mem_cons_self x xs)
    have hxs := ih (fun y hy => h y (List.mem_cons_of_mem x hy))
    have hw : w x = (a x || b x) := hx.1.symm
    rw [List.filter_cons, List.filter_cons, List.filter_cons, hw]
    cases ha : a x <;> cases hb : b x
    · simpa [ha, hb] using hxs
    · rw [if_neg (by simp : ¬(false = true)), if_pos rfl,
        if_pos (by simp : (false || true) = true)]
      simp only [List.length_cons]
      omega
    · rw [if_pos rfl, if_neg (by simp : ¬(false = true)),
        if_pos (by simp : (true || false) = true)]
      simp only [List.length_cons]
      omega
    · exfalso
      have hcontra := hx.2
      rw [ha, hb] at hcontra
      simp at hcontra

/-- C4: `calculate_accuracy_summary` matches its reference definition on
every list of §3-well-formed records: it is empty exactly when there are
no resolved records; otherwise `overall_total` counts the resolved
records, `overall_correct ≤ overall_total`, `overall_accuracy_pct =
round(100*correct/total, 1)`, and the favourite/upset buckets partition
exactly the resolved records that carry a probability, split at 55
(inclusive on the favourite side). -/
theorem claim_C4_summary_reference (preds : List Record) (now : String)
    (hwf : ∀ p ∈ preds, wfProbB p = true) :
    (calculate_accuracy_summary preds now = none ↔ preds.filter resolvedB = []) ∧
    (∀ s, calculate_accuracy_summary preds now = some s →
      s.overall_total = (preds.filter resolvedB).length ∧
      s.overall_correct ≤ s.overall_total ∧
      s.overall_accuracy_pct =
        round1 (100 * (s.overall_correct : ℚ) / (s.overall_total : ℚ)) ∧
      s.favourite_picks.total =
        (preds.filter (fun p => resolvedB p && probIsGe55 p)).length ∧
      s.upset_picks.total =
        (preds.filter (fun p => resolvedB p && probIsLt55 p)).length ∧
      s.favourite_picks.total + s.upset_picks.total =
        (preds.filter (fun p => resolvedB p && p.predicted_probability.isSome)).length) := by
  have hfav : (preds.filter resolvedB).filter favPickB =
      preds.filter (fun p => resolvedB p && probIsGe55 p) := by
    rw [List.filter_filter]
    refine List.filter_congr ?_
    intro p hp
    have hw := hwf p hp
    cases hq : p.predicted_probability with
    | none => simp [favPickB, probIsGe55, hq]
    | some q =>
      simp only [wfProbB, hq, Bool.and_eq_true, decide_eq_true_eq] at hw
      have hq0 : q ≠ 0 := by
        intro h0
        rw [h0] at hw
        exact absurd hw.1 (by norm_num)
      simp [favPickB, probIsGe55, hq, hq0, Bool.and_comm]
  have hupset : (preds.filter resolvedB).filter upsetPickB =
      preds.filter (fun p => resolvedB p && probIsLt55 p) := by
    rw [List.filter_filter]
    refine List.filter_congr ?_
    intro p hp
    have hw := hwf p hp
    cases hq : p.predicted_probability with
    | none => simp [upsetPickB, probIsLt55, hq]
    | some q =>
      simp only [wfProbB, hq, Bool.and_eq_true, decide_eq_true_eq] at hw
      have hq0 : q ≠ 0 := by
        intro h0
        rw [h0] at hw
        exact absurd hw.1 (by norm_num)
      simp [upsetPickB, probIsLt55, hq, hq0, Bool.and_comm]
  have hsplit : (preds.filter (fun p => resolvedB p && probIsGe55 p)).length +
      (preds.filter (fun p => resolvedB p && probIsLt55 p)).length =
      (preds.filter (fun p => resolvedB p && p.predicted_probability.isSome)).length := by
    refine filter_length_split preds _ _ _ ?_
    intro p _
    cases hq : p.predicted_probability with
    | none => simp [probIsGe55, probIsLt55, hq]
    | some q =>
      by_cases h55 : 55 ≤ q
      · simp [probIsGe55, probIsLt55, hq, h55, not_lt.mpr h55]
      · simp [probIsGe55, probIsLt55, hq, h55, lt_of_not_le h55]
  constructor
  · simp only [calculate_accuracy_summary]
    by_cases hempty : (preds.filter fun p => !p.correct.isNone).isEmpty = true
    · rw [if_pos hempty]
      simpa [resolvedB] using List.isEmpty_iff.mp hempty
    · rw [if_neg hempty]
      constructor
      · intro h; cases h
      · intro h
        exact absurd (List.isEmpty_iff.mpr (by simpa [resolvedB] using h)) hempty
  · intro s hs
    simp only [calculate_accuracy_summary] at hs
    by_cases hempty : (preds.filter fun p => !p.correct.isNone).isEmpty = true
    · rw [if_pos hempty] at hs; cases hs
    · rw [if_neg hempty] at hs
      have hpos : 0 < (preds.filter fun p => !p.correct.isNone).length := by
        rcases List.isEmpty_iff_length_eq_zero.not.mp hempty |> Nat.pos_of_ne_zero
          with h
        exact h
      injection hs with hs
      subst hs
      refine ⟨rfl, List.length_filter_le _ _, ?_, ?_, ?_, ?_⟩
      · simp only [if_pos hpos]
        congr 1
        field_simp
        ring
      · simpa [resolvedB] using congrArg List.length hfav
      · simpa [resolvedB] using congrArg List.length hupset
      · have h1 : ((preds.filter fun p => !p.correct.isNone).filter favPickB).length =
            (preds.filter (fun p => resolvedB p && probIsGe55 p)).length := by
          simpa [resolvedB] using congrArg List.length hfav
        have h2 : ((preds.filter fun p => !p.correct.isNone).filter upsetPickB).length =
            (preds.filter (fun p => resolvedB p && probIsLt55 p)).length := by
          simpa [resolvedB] using congrArg List.length hupset
        simp only [h1, h2]
        exact hsplit

/-! ## C5: `extract_predicted_probability` ignores the winner argument -/

/-- C5 counterexample: the claim says a winner of `"Unknown"` forces a
`None` probability, but the Python body never reads `predicted_winner`,
so a qualifying token is still returned. -/
theorem claim_C5_counterexample :
    extract_predicted_probability "The model gives this a 65% chance" "Unknown" =
      some 65 ∧
    extract_predicted_probability "The model gives this a 65% chance" "Unknown" ≠
      none := by
  refine ⟨by decide, by decide⟩

/-- C5 amended: the winner argument is ignored entirely; for every text
the result is the first percentage token (2-3 digits, optional single
decimal, before `%`) whose value lies in `[50, 99]`, and `None` when no
token qualifies. -/
theorem claim_C5_amended (text w₁ w₂ : String) :
    extract_predicted_probability text w₁ = extract_predicted_probability text w₂ ∧
    extract_predicted_probability text w₁ =
      (pctScan text.toList).find? (fun v => decide (50 ≤ v) && decide (v ≤ 99)) :=
  ⟨rfl, rfl⟩

/-! ## C10: marker present but neither name in the window -/

/-- C10: when the `"PREDICTED WINNER"` marker is found at index `i` but
neither full team name occurs in the 200-character window after it, the
marker branch does not return `"Unknown"`: the code falls through to the
mention-count fallback over the first 300 characters, which returns the
strictly-more-mentioned team and yields `"Unknown"` exactly on tied
counts (for team names distinct from the sentinel). -/
theorem claim_C10_marker_fallthrough (text home away : String) (i : Nat)
    (hi : findSub markerChars (upperL text.toList) = some i)
    (hh : findSub (upperL home.toList) (((upperL text.toList).drop i).take 200) = none)
    (ha : findSub (upperL away.toList) (((upperL text.toList).drop i).take 200) = none) :
    extract_predicted_winner text home away = mentionFallback text home away ∧
    (countSub (upperL home.toList) (upperL (text.toList.take 300)) =
        countSub (upperL away.toList) (upperL (text.toList.take 300)) →
      extract_predicted_winner text home away = "Unknown") ∧
    (home ≠ "Unknown" → away ≠ "Unknown" →
      extract_predicted_winner text home away = "Unknown" →
      countSub (upperL home.toList) (upperL (text.toList.take 300)) =
        countSub (upperL away.toList) (upperL (text.toList.take 300))) := by
  have hfall : extract_predicted_winner text home away =
      mentionFallback text home away := by
    simp only [String.toList] at hi hh ha
    simp [extract_predicted_winner, winnerViaMarker, String.toList, hi, hh, ha]
  refine ⟨hfall, ?_, ?_⟩
  · intro heq
    rw [hfall, mentionFallback]
    simp only [heq, lt_irrefl, if_false]
  · intro hhome haway hunk
    rw [hfall] at hunk
    by_contra hne
    rcases Nat.lt_or_ge (countSub (upperL away.toList) (upperL (text.toList.take 300)))
        (countSub (upperL home.toList) (upperL (text.toList.take 300))) with hlt | hge
    · rw [mentionFallback] at hunk
      simp only [hlt, if_true] at hunk
      exact hhome hunk
    · have hlt2 : countSub (upperL home.toList) (upperL (text.toList.take 300)) <
          countSub (upperL away.toList) (upperL (text.toList.take 300)) :=
        lt_of_le_of_ne hge hne
      rw [mentionFallback] at hunk
      simp only [Nat.not_lt.mpr hge, if_false, hlt2, if_true] at hunk
      exact haway hunk

/-! ## Lemmas about `findSub` on appended text (for C7) -/

theorem isPrefixOf_append_of_fit (pat a t : List Char) (h : pat.length ≤ a.length) :
    pat.isPrefixOf (a ++ t) = pat.isPrefixOf a := by
  rw [Bool.eq_iff_iff, List.isPrefixOf_iff_prefix, List.isPrefixOf_iff_prefix,
    List.prefix_iff_eq_take, List.prefix_iff_eq_take, List.take_append_eq_append_take,
    Nat.sub_eq_zero_of_le h, List.take_zero, List.append_nil]

theorem findSub_append (pat : List Char) (hpat : pat ≠ []) :
    ∀ (a : List Char) (k : Nat), findSub pat a = some k →
      k + pat.length ≤ a.length → ∀ t, findSub pat (a ++ t) = some k := by
  intro a
  induction a with
  | nil =>
    intro k hk _ t
    simp only [findSub, List.isEmpty_iff] at hk
    rw [if_neg hpat] at hk
    cases hk
  | cons c a' ih =>
    intro k hk hfit t
    have hlen : pat.length ≤ (c :: a').length := le_trans (Nat.le_add_left _ _) hfit
    by_cases hpre : pat.isPrefixOf (c :: a') = true
    · simp only [findSub, hpre, if_true] at hk
      injection hk with hk
      subst hk
      have hpre2 : pat.isPrefixOf ((c :: a') ++ t) = true := by
        rw [isPrefixOf_append_of_fit pat (c :: a') t hlen]
        exact hpre
      rw [List.cons_append] at hpre2 ⊢
      simp [findSub, hpre2]
    · simp only [findSub, hpre, if_false] at hk
      cases hfs : findSub pat a' with
      | none => rw [hfs] at hk; cases hk
      | some m =>
        rw [hfs] at hk
        simp only [Option.map_some'] at hk
        injection hk with hk
        subst hk
        have hpre2 : pat.isPrefixOf ((c :: a') ++ t) = false := by
          rw [isPrefixOf_append_of_fit pat (c :: a') t hlen]
          exact Bool.not_eq_true _ ▸ eq_false_of_ne_true hpre
        have hfit' : m + pat.length ≤ a'.length := by
          simp only [List.length_cons] at hfit
          omega
        have hrec := ih m hfs hfit' t
        rw [List.cons_append] at hpre2 ⊢
        simp [findSub, hpre2, hrec]

/-! ## Lemmas about the percentage scanner (for C7) -/

theorem skipSpaces_length_le : ∀ l : List Char, (skipSpaces l).length ≤ l.length := by
  intro l
  induction l with
  | nil => exact le_refl _
  | cons c rest ih =>
    by_cases h : pySpace c = true
    · simp only [skipSpaces, h, if_true]
      exact le_trans ih (by simp)
    · simp [skipSpaces, h]

theorem tryPct_shrinks (q : ℚ) (l : List Char) (v : ℚ) (r : List Char)
    (h : tryPct q l = some (v, r)) : r.length < l.length := by
  simp only [tryPct] at h
  cases hs : skipSpaces l with
  | nil => rw [hs] at h; cases h
  | cons c rest =>
    rw [hs] at h
    by_cases hc : c = '%'
    · simp only [hc, if_true] at h
      injection h with h
      have := skipSpaces_length_le l
      rw [hs] at this
      simp only [List.length_cons] at this
      cases h
      omega
    · simp [hc] at h

theorem tryFrac_shrinks (n : Nat) (l : List Char) (v : ℚ) (r : List Char)
    (h : tryFrac n l = some (v, r)) : r.length ≤ l.length - 1 := by
  match l with
  | [] =>
    have := tryPct_shrinks n [] v r h
    omega
  | [c] =>
    have := tryPct_shrinks n [c] v r h
    simp only [List.length_cons, List.length_nil] at this ⊢
    omega
  | p :: d :: rest =>
    simp only [tryFrac] at h
    by_cases hp : p = '.'
    · rw [if_pos hp] at h
      cases hd : digit? d with
      | none =>
        rw [hd] at h
        have := tryPct_shrinks _ _ _ _ h
        simp only [List.length_cons] at this ⊢
        omega
      | some z =>
        rw [hd] at h
        have := tryPct_shrinks _ _ _ _ h
        simp only [List.length_cons] at this ⊢
        omega
    · rw [if_neg hp] at h
      have := tryPct_shrinks _ _ _ _ h
      simp only [List.length_cons] at this ⊢
      omega

theorem matchAt_shrinks (l : List Char) (v : ℚ) (r : List Char)
    (h : matchAt l = some (v, r)) : r.length < l.length := by
  match l with
  | [] => cases h
  | [c] => cases h
  | d₁ :: d₂ :: rest =>
    simp only [matchAt] at h
    cases h1 : digit? d₁ with
    | none => rw [h1] at h; cases h
    | some x =>
      cases h2 : digit? d₂ with
      | none => rw [h1, h2] at h; cases h
      | some y =>
        rw [h1, h2] at h
        have hshrink : r.length ≤ rest.length - 1 ∨ rest = [] := by
          match rest, h with
          | [], h => exact Or.inr rfl
          | d₃ :: rest₃, h =>
            left
            have h' : (match digit? d₃ with
                | some z => tryFrac (100 * x + 10 * y + z) rest₃
                | none => tryFrac (10 * x + y) (d₃ :: rest₃)) = some (v, r) := h
            cases h3 : digit? d₃ with
            | some z =>
              rw [h3] at h'
              have := tryFrac_shrinks _ _ _ _ h'
              simp only [List.length_cons]
              omega
            | none =>
              rw [h3] at h'
              have := tryFrac_shrinks _ _ _ _ h'
              simp only [List.length_cons] at this ⊢
              omega
        simp only [List.length_cons]
        rcases hshrink with hs | hs
        · omega
        · subst hs
          have h' : tryFrac (10 * x + y) ([] : List Char) = some (v, r) := h
          simp only [tryFrac] at h'
          have := tryPct_shrinks _ _ _ _ h'
          simp at this

theorem pctScanF_fuel :
    ∀ fuel : Nat, ∀ l : List Char, l.length ≤ fuel → pctScanF fuel l = pctScan l := by
  intro fuel
  induction fuel using Nat.strong_induction_on with
  | _ fuel ih =>
    intro l hl
    match fuel, l with
    | 0, [] => rfl
    | fuel + 1, [] => rfl
    | 0, c :: rest => simp at hl
    | fuel + 1, c :: rest =>
      simp only [List.length_cons] at hl
      rw [pctScan]
      simp only [List.length_cons]
      cases hm : matchAt (c :: rest) with
      | none =>
        simp only [pctScanF, hm]
        have h1 : pctScanF fuel rest = pctScan rest :=
          ih fuel (Nat.lt_succ_self _) rest (by simpa using hl)
        have h2 : pctScanF rest.length rest = pctScan rest :=
          pctScanF_fuel_aux rest
        rw [h1, h2]
      | some vr =>
        simp only [pctScanF, hm]
        have hsh := matchAt_shrinks (c :: rest) vr.1 vr.2 (by rw [hm])
        simp only [List.length_cons] at hsh
        have h1 : pctScanF fuel vr.2 = pctScan vr.2 :=
          ih fuel (Nat.lt_succ_self _) vr.2 (by omega)
        have h2 : pctScanF rest.length vr.2 = pctScan vr.2 :=
          ih rest.length (by omega) vr.2 (by omega)
        rw [h1, h2]
where
  pctScanF_fuel_aux (l : List Char) : pctScanF l.length l = pctScan l := rfl

theorem pctScan_cons_none (c : Char) (l : List Char)
    (h : matchAt (c :: l) = none) : pctScan (c :: l) = pctScan l := by
  rw [pctScan]
  simp only [List.length_cons, pctScanF, h]
  exact pctScanF_fuel l.length l (le_refl _)

theorem pctScan_cons_some (c : Char) (l : List Char) (v : ℚ) (r : List Char)
    (h : matchAt (c :: l) = some (v, r)) : pctScan (c :: l) = v :: pctScan r := by
  rw [pctScan]
  simp only [List.length_cons, pctScanF, h]
  have hsh := matchAt_shrinks (c :: l) v r h
  simp only [List.length_cons] at hsh
  rw [pctScanF_fuel l.length r (by omega)]

theorem matchAt_nondigit (c : Char) (l : List Char) (h : c.isDigit = false) :
    matchAt (c :: l) = none := by
  match l with
  | [] => rfl
  | d :: rest => simp [matchAt, digit?, h]

theorem pctScan_nondigit_prepend :
    ∀ (pre l : List Char), (∀ c ∈ pre, c.isDigit = false) →
      pctScan (pre ++ l) = pctScan l := by
  intro pre
  induction pre with
  | nil => intro l _; rfl
  | cons c rest ih =>
    intro l h
    rw [List.cons_append,
      pctScan_cons_none c (rest ++ l) (matchAt_nondigit c _ (h c (by simp)))]
    exact ih l (fun d hd => h d (by simp [hd]))

theorem tryFrac_pct_head (v : Nat) (r : List Char) :
    tryFrac v ('%' :: r) = tryPct (v : ℚ) ('%' :: r) := by
  cases r with
  | nil => rfl
  | cons d rest => simp [tryFrac]

theorem tryPct_pct_head (q : ℚ) (r : List Char) : tryPct q ('%' :: r) = some (q, r) := by
  simp [tryPct, skipSpaces, pySpace]

theorem matchAt_61 (r : List Char) : matchAt ('6' :: '1' :: '%' :: r) = some (61, r) := by
  have h1 : digit? '6' = some 6 := rfl
  have h2 : digit? '1' = some 1 := rfl
  have h3 : digit? '%' = none := rfl
  simp only [matchAt, h1, h2, h3, tryFrac_pct_head, tryPct_pct_head]
  norm_num

/-- The marker branch of the extractor is insensitive to text appended
after the part of the window that contains both full team names: the
positions found for the marker and for the two names are those of the
fixed part `a`. -/
theorem winnerViaMarker_append (a t homeU awayU : List Char) (home away : String)
    (i hp ap : Nat) (hhne : homeU ≠ []) (hane : awayU ≠ [])
    (hm : findSub markerChars a = some i)
    (hmfit : i + markerChars.length ≤ a.length)
    (hhp : findSub homeU ((a.drop i).take 200) = some hp)
    (hhfit : hp + homeU.length ≤ ((a.drop i).take 200).length)
    (hap : findSub awayU ((a.drop i).take 200) = some ap)
    (hafit : ap + awayU.length ≤ ((a.drop i).take 200).length) :
    winnerViaMarker (a ++ t) homeU awayU home away =
      if hp < ap then some home else some away := by
  have hi_le : i ≤ a.length := by
    have : 0 < markerChars.length := by decide
    omega
  have hm' : findSub markerChars (a ++ t) = some i :=
    findSub_append markerChars (by decide) a i hm hmfit t
  have hdrop : (a ++ t).drop i = a.drop i ++ t := by
    rw [List.drop_append_eq_append_drop, Nat.sub_eq_zero_of_le hi_le, List.drop_zero]
  have htake : ((a ++ t).drop i).take 200 =
      ((a.drop i).take 200) ++ t.take (200 - (a.drop i).length) := by
    rw [hdrop, List.take_append_eq_append_take]
  have hh' : findSub homeU (((a ++ t).drop i).take 200) = some hp := by
    rw [htake]
    exact findSub_append homeU hhne _ hp hhp hhfit _
  have ha' : findSub awayU (((a ++ t).drop i).take 200) = some ap := by
    rw [htake]
    exact findSub_append awayU hane _ ap hap hafit _
  simp [winnerViaMarker, hm', hh', ha']

/-- The North Melbourne scenario text (a marker announcement whose window
contains the longer of the two overlapping names). -/
def nmText : List Char := "PREDICTED WINNER: North Melbourne".toList

/-- The Port Adelaide scenario text from the spec. -/
def paText : List Char :=
  "...PREDICTED WINNER: Port Adelaide is backed at 61% to beat Adelaide...".toList

/-- The non-digit run of `paText` before the `61%` token. -/
def paPre : List Char := "...PREDICTED WINNER: Port Adelaide is backed at ".toList

/-- The remainder of `paText` after the `61%` token. -/
def paSuffix : List Char := " to beat Adelaide...".toList

/-- C7: full-name disambiguation.  With team names where one is a suffix
of the other ("Melbourne" / "North Melbourne"), text announcing
"PREDICTED WINNER: North Melbourne" yields "North Melbourne" in either
argument order, for any continuation of the text; and the spec's Port
Adelaide scenario yields winner "Port Adelaide" with probability 61. -/
theorem claim_C7_full_name_disambiguation :
    (∀ tail : List Char,
      extract_predicted_winner (String.mk (nmText ++ tail))
        "Melbourne" "North Melbourne" = "North Melbourne") ∧
    (∀ tail : List Char,
      extract_predicted_winner (String.mk (nmText ++ tail))
        "North Melbourne" "Melbourne" = "North Melbourne") ∧
    (∀ tail : List Char,
      extract_predicted_winner (String.mk (paText ++ tail))
        "Adelaide" "Port Adelaide" = "Port Adelaide") ∧
    (∀ (tail : List Char) (w : String),
      extract_predicted_probability (String.mk (paText ++ tail)) w = some 61) := by
  refine ⟨?_, ?_, ?_, ?_⟩
  · intro tail
    have e : upperL ((String.mk (nmText ++ tail)).toList) = upperL nmText ++ upperL tail := by
      show upperL (nmText ++ tail) = _
      simp [upperL]
    have key := winnerViaMarker_append (upperL nmText) (upperL tail)
      (upperL "Melbourne".toList) (upperL "North Melbourne".toList)
      "Melbourne" "North Melbourne" 0 24 18
      (by decide) (by decide) (by decide) (by decide) (by decide) (by decide)
      (by decide) (by decide)
    simp only [extract_predicted_winner, e, key]
    norm_num
  · intro tail
    have e : upperL ((String.mk (nmText ++ tail)).toList) = upperL nmText ++ upperL tail := by
      show upperL (nmText ++ tail) = _
      simp [upperL]
    have key := winnerViaMarker_append (upperL nmText) (upperL tail)
      (upperL "North Melbourne".toList) (upperL "Melbourne".toList)
      "North Melbourne" "Melbourne" 0 18 24
      (by decide) (by decide) (by decide) (by decide) (by decide) (by decide)
      (by decide) (by decide)
    simp only [extract_predicted_winner, e, key]
    norm_num
  · intro tail
    have e : upperL ((String.mk (paText ++ tail)).toList) = upperL paText ++ upperL tail := by
      show upperL (paText ++ tail) = _
      simp [upperL]
    have key := winnerViaMarker_append (upperL paText) (upperL tail)
      (upperL "Adelaide".toList) (upperL "Port Adelaide".toList)
      "Adelaide" "Port Adelaide" 3 23 18
      (by decide) (by decide) (by decide) (by decide) (by decide) (by decide)
      (by decide) (by decide)
    simp only [extract_predicted_winner, e, key]
    norm_num
  · intro tail w
    have e : (String.mk (paText ++ tail)).toList =
        paPre ++ ('6' :: '1' :: '%' :: (paSuffix ++ tail)) := rfl
    have hscan : pctScan ((String.mk (paText ++ tail)).toList) =
        61 :: pctScan (paSuffix ++ tail) := by
      rw [e, pctScan_nondigit_prepend paPre _ (by decide),
        pctScan_cons_some '6' _ 61 (paSuffix ++ tail) (matchAt_61 _)]
    simp only [extract_predicted_probability, hscan]
    rw [List.find?_cons_of_pos _ (by norm_num)]

/-! ## C6: the history formatter raises on §3-well-formed stores

The pipeline itself produces records with `predicted_probability = None`
(whenever no percentage token is extractable), and once such a record is
resolved and involves the requested teams, `format_history_for_ai`
evaluates `'%.0f' % None` and raises `TypeError`. -/

/-- A batch whose prediction text states a winner but no percentage. -/
def c6Batch : List PredIn :=
  [{ home_team := "Richmond"
     away_team := "Carlton"
     prediction := "A tight contest, but the midfield should decide it. PREDICTED WINNER: Richmond"
     date := "2026-04-04"
     venue := "MCG" }]

/-- The completed game matching the single `c6Batch` prediction. -/
def c6Game : Game :=
  { hteam := "Richmond", ateam := "Carlton", round := .num 5
    hscore := 90, ascore := 75, complete := 100 }

/-- The store produced by recording `c6Batch` and then reconciling it:
one resolved record with `predicted_probability = None`. -/
def c6Store : Store :=
  (check_and_update_results 2026 (some [c6Game]) "2026-04-07T10:00:00"
    (save_predictions c6Batch (RoundId.num 5) 2026 "2026-04-04T09:00:00" emptyStore)).1

/-- C6: the claim says the formatter never raises on a well-formed store,
but a store the core itself builds (well-formed per §3, with a resolved
record whose probability was not extractable) makes
`format_history_for_ai` raise a `TypeError` at
`'%.0f' % p['predicted_probability']` — modelled as the `none` result. -/
theorem claim_C6_formatter_raises :
    c6Store.predictions.all wfRecordB = true ∧
    (c6Store.predictions.map Record.predicted_probability) = [none] ∧
    format_history_for_ai "Richmond" "Carlton" c6Store = none := by
  refine ⟨by decide, by decide, by decide⟩

/-! ## Concrete data for the witnesses -/

/-- A pending record as `save_predictions` writes it. -/
def recPending : Record :=
  { year := 2026, round := .num 5, date := "2026-04-04", venue := "MCG"
    home_team := "Richmond", away_team := "Carlton"
    predicted_winner := "Richmond", predicted_probability := some 62
    prediction_text := "PREDICTED WINNER: Richmond at 62%"
    actual_winner := none, actual_margin := none, correct := none
    saved_at := "t0", result_checked_at := none }

/-- A resolved record as `check_and_update_results` leaves it. -/
def recResolved : Record :=
  { year := 2026, round := .num 4, date := "2026-03-28", venue := "MCG"
    home_team := "Geelong", away_team := "Hawthorn"
    predicted_winner := "Geelong", predicted_probability := some 58
    prediction_text := "PREDICTED WINNER: Geelong at 58%"
    actual_winner := some "Geelong", actual_margin := some 15
    correct := some true, saved_at := "t0", result_checked_at := some "t1" }

/-- A resolved upset-pick record that went wrong. -/
def recResolvedWrong : Record :=
  { year := 2026, round := .num 4, date := "2026-03-29", venue := "Gabba"
    home_team := "Brisbane Lions", away_team := "Sydney", predicted_winner := "Sydney"
    predicted_probability := some 52
    prediction_text := "PREDICTED WINNER: Sydney at 52%"
    actual_winner := some "Brisbane Lions", actual_margin := some 8
    correct := some false, saved_at := "t0", result_checked_at := some "t1" }

/-- A resolved record without an extractable probability. -/
def recResolvedNoProb : Record :=
  { year := 2026, round := .num 4, date := "2026-03-29", venue := "Optus Stadium"
    home_team := "Fremantle", away_team := "West Coast", predicted_winner := "Fremantle"
    predicted_probability := none
    prediction_text := "PREDICTED WINNER: Fremantle"
    actual_winner := some "Fremantle", actual_margin := some 30
    correct := some true, saved_at := "t0", result_checked_at := some "t1" }

/-- One fresh prediction used by the C2 and C8 witnesses. -/
def wBatch : List PredIn :=
  [{ home_team := "Collingwood"
     away_team := "Essendon"
     prediction := "PREDICTED WINNER: Collingwood at 61% on current form"
     date := "2026-04-25"
     venue := "MCG" }]

/-- Witness for C2: the preservation theorem applied to a concrete
non-empty store satisfying the invariant. -/
theorem claim_C2_witness :
    (∀ p ∈ (Store.mk [recPending, recResolved] none).predictions, triOkB p = true) ∧
    (∀ p ∈ (save_predictions wBatch (RoundId.num 6) 2026 "t2"
        (Store.mk [recPending, recResolved] none)).predictions, triOkB p = true) :=
  ⟨by decide,
   (claim_C2_tristate_invariant (Store.mk [recPending, recResolved] none)
      (by decide)).1 wBatch (RoundId.num 6) 2026 "t2"⟩

/-- The completed game the C3 witness reconciles against (the spec's
Richmond 90 – Carlton 75 scenario). -/
def w3Game : Game :=
  { hteam := "Richmond", ateam := "Carlton", round := .num 5
    hscore := 90, ascore := 75, complete := 100 }

/-- Witness for C3: the spec scenario Richmond 90 - Carlton 75 for a
pending Richmond tip. -/
theorem claim_C3_witness :
    isPendingFor 2026 recPending = true ∧
    findMatch recPending ([w3Game].filter fun g => decide (g.complete = 100)) =
      some w3Game ∧
    (check_and_update_results 2026 (some [w3Game]) "t1"
        (Store.mk [recPending] none)).1.predictions[0]? =
      some (updateRecord recPending w3Game "t1") ∧
    (updateRecord recPending w3Game "t1").actual_winner = some "Richmond" ∧
    (updateRecord recPending w3Game "t1").actual_margin = some 15 ∧
    (updateRecord recPending w3Game "t1").correct = some true :=
  ⟨by decide, by decide,
   (claim_C3_reconciliation_postcondition 2026 [w3Game] "t1"
      (Store.mk [recPending] none) 0 recPending w3Game rfl (by decide) (by decide)).1,
   by decide, by decide, by decide⟩

/-- The record list used by the C4 witness: two resolved records with
probabilities on both sides of 55, one resolved record without a
probability, and one pending record. -/
def w4Preds : List Record :=
  [recResolved, recResolvedWrong, recResolvedNoProb, recPending]

/-- Witness for C4: the reference equations at a concrete mixed record
list. -/
theorem claim_C4_witness :
    (∀ p ∈ w4Preds, wfProbB p = true) ∧
    ((calculate_accuracy_summary w4Preds "t2" = none ↔ w4Preds.filter resolvedB = []) ∧
    (∀ s, calculate_accuracy_summary w4Preds "t2" = some s →
      s.overall_total = (w4Preds.filter resolvedB).length ∧
      s.overall_correct ≤ s.overall_total ∧
      s.overall_accuracy_pct =
        round1 (100 * (s.overall_correct : ℚ) / (s.overall_total : ℚ)) ∧
      s.favourite_picks.total =
        (w4Preds.filter (fun p => resolvedB p && probIsGe55 p)).length ∧
      s.upset_picks.total =
        (w4Preds.filter (fun p => resolvedB p && probIsLt55 p)).length ∧
      s.favourite_picks.total + s.upset_picks.total =
        (w4Preds.filter (fun p => resolvedB p && p.predicted_probability.isSome)).length)) :=
  ⟨by decide, claim_C4_summary_reference w4Preds "t2" (by decide)⟩

/-- The operation sequence of the C8 witness: one further recording, one
reconciliation against a failed fetch. -/
def w8Ops : List Op :=
  [Op.record wBatch (RoundId.num 6) 2026 "t2", Op.check 2026 none "t3"]

/-- Witness for C8: a resolved record survives a record-then-reconcile
sequence untouched. -/
theorem claim_C8_witness :
    (Store.mk [recResolved, recPending] none).predictions[0]? = some recResolved ∧
    recResolved.correct ≠ none ∧
    (runOps (Store.mk [recResolved, recPending] none) w8Ops).predictions[0]? =
      some recResolved ∧
    (Store.mk [recResolved, recPending] none).predictions.length ≤
      (runOps (Store.mk [recResolved, recPending] none) w8Ops).predictions.length :=
  ⟨rfl, by decide,
   (claim_C8_resolution_one_way w8Ops (Store.mk [recResolved, recPending] none)
      0 recResolved rfl (by decide)).1,
   (claim_C8_resolution_one_way w8Ops (Store.mk [recResolved, recPending] none)
      0 recResolved rfl (by decide)).2⟩

/-- Witness for C9: a failed fetch with a pending record leaves the store
unchanged and returns `None`. -/
theorem claim_C9_witness :
    ((Store.mk [recPending] none).predictions.filter (isPendingFor 2026)).isEmpty
      = false ∧
    check_and_update_results 2026 none "t1" (Store.mk [recPending] none) =
      (Store.mk [recPending] none, none) :=
  ⟨by decide,
   claim_C9_reconciler_no_op 2026 none "t1" (Store.mk [recPending] none) (Or.inr rfl)⟩

/-- The C10 witness text: the marker is present, but neither full team
name occurs in its 200-character window; the home team is mentioned once
in the first 300 characters. -/
def w10Text : String :=
  "Geelong should handle the wet conditions far better. PREDICTED WINNER named below after the weather check."

/-- Witness for C10: marker present, neither name in the window, home
team mentioned once early in the text. -/
theorem claim_C10_witness :
    findSub markerChars (upperL w10Text.toList) = some 53 ∧
    extract_predicted_winner w10Text "Geelong" "Hawthorn" =
      mentionFallback w10Text "Geelong" "Hawthorn" ∧
    mentionFallback w10Text "Geelong" "Hawthorn" = "Geelong" :=
  ⟨by decide,
   (claim_C10_marker_fallthrough w10Text "Geelong" "Hawthorn" 53
      (by decide) (by decide) (by decide)).1,
   by decide⟩

end Tracker
